import Mathlib

/-!
Verification of the docker-web dashboard: a shallow embedding of the
resource gateway (server.ts) and the dashboard client (App component)
into Lean 4, with theorems settling the specification claims.

Machine integers of the source are modelled as Int, JS strings as Lean
String (a wrapper around List Char in this toolchain), JS Sets of
identifiers as Finset String, and the engine (dockerode) as an explicit
function parameter returning Except, so that each endpoint is a pure
function of the engine oracle and the parsed request body.
-/

set_option maxHeartbeats 1000000

/-! ## Data model (record shapes produced by the gateway, consumed by the client) -/

structure Container where
  id : String
  names : List String
  image : String
  state : String
  status : String
  created : Int
  size : Int
deriving DecidableEq

structure Image where
  id : String
  repoTags : List String
  created : Int
  size : Int
  virtualSize : Int
  containers : Int
deriving DecidableEq

structure Volume where
  name : String
  driver : String
  mountpoint : String
  created : String
  size : Int
  refCount : Int
deriving DecidableEq

structure Network where
  id : String
  name : String
  driver : String
  scope : String
  internal : Bool
  created : String
deriving DecidableEq

structure SystemInfo where
  imagesCount : Int
  imagesSize : Int
  containersCount : Int
  containersSize : Int
  volumesCount : Int
  volumesSize : Int
deriving DecidableEq

/-! ## Gateway: bulk delete endpoints (server.ts lines 108-193)

Each DELETE handler iterates over the parsed identifier list, issues one
engine removal call per identifier inside its own try/catch, and pushes
a per-identifier outcome; the loop never aborts early.  The engine is
modelled as a pure oracle from removal calls to Except results. -/

inductive RemoveCall where
  | containerRemove (id : String) (force : Bool)
  | imageRemove (id : String) (force : Bool)
  | volumeRemove (name : String) (force : Bool)
  | networkRemove (id : String)
deriving DecidableEq

/-- Whether the removal call carries the force option; a network removal
takes no options, hence is never forced. -/
def RemoveCall.isForced : RemoveCall → Bool
  | .containerRemove _ f => f
  | .imageRemove _ f => f
  | .volumeRemove _ f => f
  | .networkRemove _ => false

structure DeleteOutcome where
  ident : String
  success : Bool
  error : Option String
deriving DecidableEq

/-- The outcome pushed for one identifier: success on Except.ok, or
failure with the engine error message (the catch branch). -/
def outcomeFor (ident : String) : Except String Unit → DeleteOutcome
  | .ok _ => ⟨ident, true, none⟩
  | .error e => ⟨ident, false, some e⟩

/-- The for-loop of each DELETE handler: per identifier, build the
removal call, run it against the engine, record the outcome, and
continue with the rest regardless of failure.  Returns the outcome list
(the response body) paired with the trace of engine calls issued. -/
def deleteLoop (mkCall : String → RemoveCall) (engine : RemoveCall → Except String Unit) :
    List String → List DeleteOutcome × List RemoveCall
  | [] => ([], [])
  | ident :: rest =>
      let call := mkCall ident
      let tail := deleteLoop mkCall engine rest
      (outcomeFor ident (engine call) :: tail.1, call :: tail.2)

/-- DELETE /api/containers: container.remove with force true. -/
def deleteContainersEndpoint (engine : RemoveCall → Except String Unit) (ids : List String) :
    List DeleteOutcome × List RemoveCall :=
  deleteLoop (fun i => .containerRemove i true) engine ids

/-- DELETE /api/images: image.remove with force true. -/
def deleteImagesEndpoint (engine : RemoveCall → Except String Unit) (ids : List String) :
    List DeleteOutcome × List RemoveCall :=
  deleteLoop (fun i => .imageRemove i true) engine ids

/-- DELETE /api/volumes: volume.remove with force true, addressed by name. -/
def deleteVolumesEndpoint (engine : RemoveCall → Except String Unit) (names : List String) :
    List DeleteOutcome × List RemoveCall :=
  deleteLoop (fun n => .volumeRemove n true) engine names

/-- DELETE /api/networks: network.remove with no options. -/
def deleteNetworksEndpoint (engine : RemoveCall → Except String Unit) (ids : List String) :
    List DeleteOutcome × List RemoveCall :=
  deleteLoop (fun i => .networkRemove i) engine ids

theorem deleteLoop_eq (mkCall : String → RemoveCall) (engine : RemoveCall → Except String Unit)
    (ids : List String) :
    deleteLoop mkCall engine ids =
      (ids.map (fun i => outcomeFor i (engine (mkCall i))), ids.map mkCall) := by
  induction ids with
  | nil => rfl
  | cons i rest ih => simp [deleteLoop, ih]

/-! ## Gateway: volume listing with disk-usage join (server.ts lines 60-87) -/

/-- One entry of volumesData.Volumes as reported by the engine; RefCount
sits under an optional UsageData object. -/
structure EngineVolume where
  name : String
  driver : String
  mountpoint : String
  createdAt : String
  refCount : Option Int
deriving DecidableEq

/-- One entry of df.Volumes; usageSize models the optional chain
UsageData?.Size (none when UsageData or Size is absent). -/
structure DfVolume where
  name : String
  usageSize : Option Int
deriving DecidableEq

/-- The volumeSizes Map: built by forEach over df.Volumes when that
section is present (later entries override earlier ones, as Map.set
does), empty otherwise.  Looking up a name yields the stored size or
none. -/
def buildVolumeSizes (dfVolumes : Option (List DfVolume)) : String → Option Int :=
  match dfVolumes with
  | none => fun _ => none
  | some vols =>
      vols.foldl
        (fun m vol => fun n => if n = vol.name then some (vol.usageSize.getD 0) else m n)
        (fun _ => none)

/-- GET /api/volumes: map each listed volume to its response record,
joining the size from the disk-usage report by name and defaulting to
zero on a missed lookup. -/
def volumesEndpoint (engineVolumes : List EngineVolume) (dfVolumes : Option (List DfVolume)) :
    List Volume :=
  let volumeSizes := buildVolumeSizes dfVolumes
  engineVolumes.map (fun v =>
    { name := v.name
      driver := v.driver
      mountpoint := v.mountpoint
      created := v.createdAt
      size := (volumeSizes v.name).getD 0
      refCount := v.refCount.getD 0 })

theorem buildVolumeSizes_foldl_lookup (l : List DfVolume) (m : String → Option Int)
    (n : String) :
    l.foldl (fun m vol => fun s => if s = vol.name then some (vol.usageSize.getD 0) else m s) m n
      = (l.reverse.find? (fun d => d.name = n)).elim (m n) (fun d => some (d.usageSize.getD 0)) := by
  induction l generalizing m with
  | nil => rfl
  | cons d rest ih =>
      simp only [List.foldl_cons, List.reverse_cons]
      rw [ih]
      rw [List.find?_append]
      cases hfind : rest.reverse.find? (fun d => d.name = n) with
      | some d' => rfl
      | none =>
          by_cases hn : d.name = n
          · rw [List.find?_cons_of_pos _ (by simp [hn])]
            have hn2 : n = d.name := hn.symm
            simp [hn2]
          · rw [List.find?_cons_of_neg _ (by simp [hn])]
            have hn2 : ¬ n = d.name := fun he => hn he.symm
            simp [hn2]

theorem buildVolumeSizes_none (n : String) : buildVolumeSizes none n = none := rfl

theorem buildVolumeSizes_lookup (l : List DfVolume) (n : String) :
    buildVolumeSizes (some l) n
      = (l.reverse.find? (fun d => d.name = n)).elim none (fun d => some (d.usageSize.getD 0)) := by
  unfold buildVolumeSizes
  exact buildVolumeSizes_foldl_lookup l (fun _ => none) n

theorem buildVolumeSizes_no_match (l : List DfVolume) (n : String)
    (h : ∀ d ∈ l, d.name ≠ n) :
    buildVolumeSizes (some l) n = none := by
  rw [buildVolumeSizes_lookup]
  cases hfind : l.reverse.find? (fun d => d.name = n) with
  | none => rfl
  | some d =>
      have hd : d ∈ l.reverse := List.mem_of_find?_eq_some hfind
      have hp := List.find?_some hfind
      exact absurd (of_decide_eq_true hp) (h d (List.mem_reverse.mp hd))

theorem buildVolumeSizes_unique_match (l : List DfVolume) (d : DfVolume) (n : String)
    (hmem : d ∈ l) (hname : d.name = n) (huniq : ∀ d' ∈ l, d'.name = n → d' = d) :
    buildVolumeSizes (some l) n = some (d.usageSize.getD 0) := by
  rw [buildVolumeSizes_lookup]
  cases hfind : l.reverse.find? (fun d => d.name = n) with
  | none =>
      have : (l.reverse.find? (fun d => d.name = n)).isSome := by
        rw [List.find?_isSome]
        exact ⟨d, List.mem_reverse.mpr hmem, by simp [hname]⟩
      rw [hfind] at this
      exact absurd this (by simp)
  | some d' =>
      have hd' : d' ∈ l := List.mem_reverse.mp (List.mem_of_find?_eq_some hfind)
      have hp := List.find?_some hfind
      simp only [decide_eq_true_eq] at hp
      rw [huniq d' hd' hp]
      rfl

/-! ## Claim theorems about the gateway -/

/-- C1: a DELETE request to a resource-kind endpoint with N identifiers
yields exactly N outcome entries, in input order, each tagged success or
failure with the engine error message; the outcome for each identifier
depends only on that identifier's own removal attempt (one failure never
aborts or skips the rest), and the full outcome set is produced whatever
the mix of successes and failures. -/
theorem delete_outcomes_per_identifier :
    ∀ (engine : RemoveCall → Except String Unit) (ids : List String),
      ((deleteContainersEndpoint engine ids).1
          = ids.map (fun i => outcomeFor i (engine (.containerRemove i true)))
        ∧ (deleteImagesEndpoint engine ids).1
          = ids.map (fun i => outcomeFor i (engine (.imageRemove i true)))
        ∧ (deleteVolumesEndpoint engine ids).1
          = ids.map (fun n => outcomeFor n (engine (.volumeRemove n true)))
        ∧ (deleteNetworksEndpoint engine ids).1
          = ids.map (fun i => outcomeFor i (engine (.networkRemove i))))
      ∧ (deleteContainersEndpoint engine ids).1.length = ids.length
      ∧ (deleteContainersEndpoint engine ids).1.map (fun r => r.ident) = ids
      ∧ (deleteVolumesEndpoint engine ids).1.length = ids.length
      ∧ (deleteVolumesEndpoint engine ids).1.map (fun r => r.ident) = ids := by
  intro engine ids
  have outcomeFor_ident : ∀ (i : String) (e : Except String Unit), (outcomeFor i e).ident = i := by
    intro i e; cases e <;> rfl
  simp only [deleteContainersEndpoint, deleteImagesEndpoint, deleteVolumesEndpoint,
    deleteNetworksEndpoint, deleteLoop_eq, List.length_map, List.map_map]
  refine ⟨⟨trivial, trivial, trivial, trivial⟩, trivial, ?_, trivial, ?_⟩ <;>
  · induction ids with
    | nil => rfl
    | cons i rest ih => simp [Function.comp, outcomeFor_ident, ih]

/-- C8: every engine removal issued by a bulk delete is a force-removal
for containers, images and volumes, and a plain removal for networks. -/
theorem delete_force_flags :
    ∀ (engine : RemoveCall → Except String Unit) (ids : List String),
      (deleteContainersEndpoint engine ids).2 = ids.map (fun i => .containerRemove i true)
      ∧ (deleteImagesEndpoint engine ids).2 = ids.map (fun i => .imageRemove i true)
      ∧ (deleteVolumesEndpoint engine ids).2 = ids.map (fun n => .volumeRemove n true)
      ∧ (deleteNetworksEndpoint engine ids).2 = ids.map (fun i => .networkRemove i)
      ∧ (deleteContainersEndpoint engine ids).2.all RemoveCall.isForced = true
      ∧ (deleteImagesEndpoint engine ids).2.all RemoveCall.isForced = true
      ∧ (deleteVolumesEndpoint engine ids).2.all RemoveCall.isForced = true
      ∧ (deleteNetworksEndpoint engine ids).2.all (fun c => !c.isForced) = true := by
  intro engine ids
  simp [deleteContainersEndpoint, deleteImagesEndpoint, deleteVolumesEndpoint,
    deleteNetworksEndpoint, deleteLoop_eq, List.all_eq_true, RemoveCall.isForced]

/-- C9: each volume record produced by the volume list endpoint keeps
the listed volume's name, and its size is the usage figure of the
disk-usage entry with the same name, or 0 when no entry matches
(including when the report carries no volume section). -/
theorem volume_size_join :
    ∀ (ev : List EngineVolume) (dfv : Option (List DfVolume)) (v : EngineVolume) (i : Nat),
      ev[i]? = some v →
      ((volumesEndpoint ev dfv)[i]?.map (fun r => r.name) = some v.name
        ∧ (dfv = none → (volumesEndpoint ev dfv)[i]?.map (fun r => r.size) = some 0)
        ∧ (∀ l, dfv = some l → (∀ d ∈ l, d.name ≠ v.name) →
            (volumesEndpoint ev dfv)[i]?.map (fun r => r.size) = some 0)
        ∧ (∀ l d, dfv = some l → d ∈ l → d.name = v.name →
            (∀ d' ∈ l, d'.name = v.name → d' = d) →
            (volumesEndpoint ev dfv)[i]?.map (fun r => r.size)
              = some (d.usageSize.getD 0))) := by
  intro ev dfv v i hv
  have hout : (volumesEndpoint ev dfv)[i]?
      = some { name := v.name, driver := v.driver, mountpoint := v.mountpoint,
               created := v.createdAt,
               size := ((buildVolumeSizes dfv) v.name).getD 0,
               refCount := v.refCount.getD 0 } := by
    unfold volumesEndpoint
    rw [List.getElem?_map, hv]
    rfl
  refine ⟨by rw [hout]; rfl, ?_, ?_, ?_⟩
  · intro hnone
    subst hnone
    rw [hout]
    simp [buildVolumeSizes_none]
  · intro l hl hno
    subst hl
    rw [hout]
    simp [buildVolumeSizes_no_match l v.name hno]
  · intro l d hl hmem hname huniq
    subst hl
    rw [hout]
    simp [buildVolumeSizes_unique_match l d v.name hmem hname huniq]

/-- Concrete engine volumes and disk-usage entries used to witness the
volume-size join: volA matches a usage entry of size 42, volB matches
nothing. -/
def volA : EngineVolume := ⟨"data", "local", "/mnt/data", "2024-01-01", some 2⟩

def volB : EngineVolume := ⟨"cache", "local", "/mnt/cache", "2024-01-02", none⟩

def dfEntryA : DfVolume := ⟨"data", some 42⟩

def dfEntryOther : DfVolume := ⟨"other", some 7⟩

theorem volume_size_join_witness :
    (volumesEndpoint [volA, volB] (some [dfEntryA, dfEntryOther]))[0]?.map (fun r => r.size)
        = some 42
    ∧ (volumesEndpoint [volA, volB] (some [dfEntryA, dfEntryOther]))[1]?.map (fun r => r.size)
        = some 0 := by
  constructor
  · have h := volume_size_join [volA, volB] (some [dfEntryA, dfEntryOther]) volA 0 (by decide)
    have := h.2.2.2 [dfEntryA, dfEntryOther] dfEntryA rfl (by decide) (by decide) (by decide)
    simpa using this
  · have h := volume_size_join [volA, volB] (some [dfEntryA, dfEntryOther]) volB 1 (by decide)
    have := h.2.2.1 [dfEntryA, dfEntryOther] rfl (by decide)
    simpa using this

/-! ## Dashboard client: state and derived view (App component)

The component's useState cells form one record; each event handler is a
pure function from the old state (plus the event payload and, for
round-trips, the network responses) to the new state.  JS Sets of
identifiers are modelled as Finset String; dynamic field access a[key]
is modelled by a JsValue-returning lookup per record kind. -/

inductive TabType where
  | containers
  | images
  | volumes
  | networks
deriving DecidableEq

inductive SortDirection where
  | asc
  | desc
deriving DecidableEq

structure SortConfig where
  key : String
  direction : SortDirection
deriving DecidableEq

/-- One row of the active table; the client stores homogeneous arrays
per tab, so a well-formed state only pairs a tab with rows of its own
kind. -/
inductive Item where
  | container (c : Container)
  | image (i : Image)
  | volume (v : Volume)
  | network (n : Network)
deriving DecidableEq

/-- A JS runtime value as it can appear during sorting: a string, a
number, a boolean, an array of strings, or undefined. -/
inductive JsValue where
  | str (s : String)
  | num (n : Int)
  | bool (b : Bool)
  | strList (l : List String)
  | undefined
deriving DecidableEq

/-! String helpers mirroring the JS methods used by the component. -/

/-- JS String.prototype.toLowerCase, modelled character-wise. -/
def jsToLower (s : String) : String := ⟨s.toList.map Char.toLower⟩

/-- Core of JS String.prototype.includes on character lists. -/
def listIncludes (needle : List Char) : List Char → Bool
  | [] => needle.isEmpty
  | c :: cs => needle.isPrefixOf (c :: cs) || listIncludes needle cs

/-- JS hay.includes(needle). -/
def jsIncludes (hay needle : String) : Bool := listIncludes needle.toList hay.toList

/-- Replace the first occurrence of pat in the list by rep, as JS
String.prototype.replace does with a string pattern. -/
def replaceFirstAux (pat rep : List Char) : List Char → List Char
  | [] => []
  | c :: cs =>
      if pat.isPrefixOf (c :: cs) then rep ++ (c :: cs).drop pat.length
      else c :: replaceFirstAux pat rep cs

/-- JS s.replace(pat, rep) with a string pattern: only the first
occurrence is replaced. -/
def jsReplaceFirst (s pat rep : String) : String :=
  ⟨replaceFirstAux pat.toList rep.toList s.toList⟩

/-- Three-way comparison of character lists by code point, the shape of
the comparison underlying localeCompare in this embedding. -/
def listCmp : List Char → List Char → Int
  | [], [] => 0
  | [], _ :: _ => -1
  | _ :: _, [] => 1
  | a :: as, b :: bs => if a < b then -1 else if b < a then 1 else listCmp as bs

/-- JS a.localeCompare(b), modelled as code-point comparison. -/
def jsLocaleCompare (a b : String) : Int := listCmp a.toList b.toList

/-! Dynamic field access a[key] per record kind, as nested string
comparisons on the key. -/

def Container.getF (c : Container) (key : String) : JsValue :=
  if key = "id" then .str c.id
  else if key = "names" then .strList c.names
  else if key = "image" then .str c.image
  else if key = "state" then .str c.state
  else if key = "status" then .str c.status
  else if key = "created" then .num c.created
  else if key = "size" then .num c.size
  else .undefined

def Image.getF (i : Image) (key : String) : JsValue :=
  if key = "id" then .str i.id
  else if key = "repoTags" then .strList i.repoTags
  else if key = "created" then .num i.created
  else if key = "size" then .num i.size
  else if key = "virtualSize" then .num i.virtualSize
  else if key = "containers" then .num i.containers
  else .undefined

def Volume.getF (v : Volume) (key : String) : JsValue :=
  if key = "name" then .str v.name
  else if key = "driver" then .str v.driver
  else if key = "mountpoint" then .str v.mountpoint
  else if key = "created" then .str v.created
  else if key = "size" then .num v.size
  else if key = "refCount" then .num v.refCount
  else .undefined

def Network.getF (n : Network) (key : String) : JsValue :=
  if key = "id" then .str n.id
  else if key = "name" then .str n.name
  else if key = "driver" then .str n.driver
  else if key = "scope" then .str n.scope
  else if key = "internal" then .bool n.internal
  else if key = "created" then .str n.created
  else .undefined

def Item.getField : Item → String → JsValue
  | .container c, key => c.getF key
  | .image i, key => i.getF key
  | .volume v, key => v.getF key
  | .network n, key => n.getF key

/-! Sorting (sortItems, part_000 lines 122-161). -/

/-- The special-case substitutions at the top of the sort callback:
container rows under the name column use the first name with its first
separator occurrence removed (empty when absent), volume and network
rows use the name field, image rows under the repoTags column use the
first tag (empty when absent); every other key reads the raw field. -/
def deriveValue (tab : TabType) (key : String) (it : Item) : JsValue :=
  let v := it.getField key
  if key = "name" || key = "names" then
    match tab with
    | .containers =>
        match it.getField "names" with
        | .strList (n :: _) => .str (jsReplaceFirst n "/" "")
        | _ => .str ""
    | .volumes => it.getField "name"
    | .networks => it.getField "name"
    | .images => v
  else if key = "repoTags" then
    match it.getField "repoTags" with
    | .strList (t :: _) => .str t
    | _ => .str ""
  else v

/-- The null/undefined guard: an absent value is compared as the empty
string. -/
def normValue : JsValue → JsValue
  | .undefined => .str ""
  | v => v

/-- JS String() coercion for the values that can reach the comparator's
fallback branch. -/
def jsStringOf : JsValue → String
  | .str s => s
  | .num n => toString n
  | .bool b => if b then "true" else "false"
  | .strList l => String.intercalate "," l
  | .undefined => "undefined"

/-- The typed comparison chain of the sort callback: lowercased
localeCompare for two strings, numeric difference for two numbers,
false-before-true for two booleans, and String() coercion plus
localeCompare otherwise. -/
def compareValues (a b : JsValue) : Int :=
  match a, b with
  | .str s, .str t => jsLocaleCompare (jsToLower s) (jsToLower t)
  | .num m, .num n => m - n
  | .bool p, .bool q => if p = q then 0 else if p then 1 else -1
  | _, _ => jsLocaleCompare (jsStringOf a) (jsStringOf b)

/-- The full comparator passed to sort: derive, normalize, compare, and
negate for descending direction. -/
def itemCompare (tab : TabType) (sc : SortConfig) (a b : Item) : Int :=
  let av := normValue (deriveValue tab sc.key a)
  let bv := normValue (deriveValue tab sc.key b)
  let comparison := compareValues av bv
  match sc.direction with
  | .asc => comparison
  | .desc => -comparison

/-- sortItems: identity without a sort config, otherwise a stable
comparator sort of a copy of the array (JS Array.prototype.sort is
stable; modelled by mergeSort). -/
def sortItems (tab : TabType) (cfg : Option SortConfig) (items : List Item) : List Item :=
  match cfg with
  | none => items
  | some sc => items.mergeSort (fun a b => itemCompare tab sc a b ≤ 0)

/-! Filtering (getFilteredItems, part_000 lines 228-274). -/

/-- The per-kind search predicate: a case-insensitive substring match
over the kind-specific fields (the default branch of the switch returns
false). -/
def matchesSearch (tab : TabType) (searchTerm : String) (it : Item) : Bool :=
  let searchLower := jsToLower searchTerm
  match tab, it with
  | .containers, .container c =>
      c.names.any (fun name => jsIncludes (jsToLower name) searchLower)
        || jsIncludes (jsToLower c.image) searchLower
        || jsIncludes (jsToLower c.status) searchLower
  | .images, .image i =>
      i.repoTags.any (fun tag => jsIncludes (jsToLower tag) searchLower)
        || jsIncludes (jsToLower i.id) searchLower
  | .volumes, .volume v =>
      jsIncludes (jsToLower v.name) searchLower
        || jsIncludes (jsToLower v.driver) searchLower
  | .networks, .network n =>
      jsIncludes (jsToLower n.name) searchLower
        || jsIncludes (jsToLower n.driver) searchLower
  | _, _ => false

/-! Component state and event handlers. -/

structure AppState where
  activeTab : TabType
  containers : List Container
  images : List Image
  volumes : List Volume
  networks : List Network
  systemInfo : Option SystemInfo
  selectedItems : Finset String
  loading : Bool
  error : Option String
  searchTerm : String
  sortConfig : Option SortConfig
deriving DecidableEq

/-- The switch at the top of getFilteredItems: the active tab's
collection, wrapped as items. -/
def itemsOf (s : AppState) : List Item :=
  match s.activeTab with
  | .containers => s.containers.map Item.container
  | .images => s.images.map Item.image
  | .volumes => s.volumes.map Item.volume
  | .networks => s.networks.map Item.network

/-- getFilteredItems: the active collection, filtered by the search
predicate unless the search term is empty. -/
def getFilteredItems (s : AppState) : List Item :=
  let items := itemsOf s
  if s.searchTerm = "" then items
  else items.filter (matchesSearch s.activeTab s.searchTerm)

/-- getSortedAndFilteredItems: filter first, then sort the filtered
subset. -/
def getSortedAndFilteredItems (s : AppState) : List Item :=
  sortItems s.activeTab s.sortConfig (getFilteredItems s)

/-- handleSort: descending only when the clicked key is already the
ascending sort key, ascending in every other prior state. -/
def handleSort (s : AppState) (key : String) : AppState :=
  let direction : SortDirection :=
    match s.sortConfig with
    | some sc => if sc.key = key ∧ sc.direction = .asc then .desc else .asc
    | none => .asc
  { s with sortConfig := some ⟨key, direction⟩ }

/-- The identifier used for selection and deletion: item.name on the
volumes tab, item.id elsewhere (undefined, modelled as the empty
string, for a row of the wrong kind — unreachable in well-formed
states). -/
def itemKey (tab : TabType) : Item → String :=
  match tab with
  | .volumes => fun it =>
      match it with
      | .volume v => v.name
      | _ => ""
  | _ => fun it =>
      match it with
      | .container c => c.id
      | .image i => i.id
      | .network n => n.id
      | .volume _ => ""

/-- handleSelectAll: gather the identifiers of the currently visible
rows; clear the whole selection when its size equals the visible count,
otherwise select exactly the visible identifiers. -/
def handleSelectAll (s : AppState) : AppState :=
  let items := getSortedAndFilteredItems s
  let allIds := items.map (itemKey s.activeTab)
  if s.selectedItems.card = allIds.length then { s with selectedItems := ∅ }
  else { s with selectedItems := allIds.toFinset }

/-- handleSelectItem: toggle one identifier in the selection set. -/
def handleSelectItem (s : AppState) (id : String) : AppState :=
  if id ∈ s.selectedItems then { s with selectedItems := s.selectedItems.erase id }
  else { s with selectedItems := insert id s.selectedItems }

/-- The search box onChange handler: only the search term changes. -/
def handleSearchChange (s : AppState) (text : String) : AppState :=
  { s with searchTerm := text }

/-- A tab button onClick handler: switch tab and reset selection,
search and sort. -/
def handleTabSwitch (s : AppState) (t : TabType) : AppState :=
  { s with activeTab := t, selectedItems := ∅, searchTerm := "", sortConfig := none }

/-- The five fetch responses of one refresh round; none models a
response whose ok flag is false. -/
structure FetchResults where
  containers : Option (List Container)
  images : Option (List Image)
  volumes : Option (List Volume)
  networks : Option (List Network)
  system : Option SystemInfo
deriving DecidableEq

/-- fetchData: set loading, clear the error, await all five fetches; if
every response is ok commit all five collections, otherwise throw,
which lands in the catch branch setting the error message; finally
clear loading.  No collection is touched on the failure path. -/
def fetchData (s : AppState) (r : FetchResults) : AppState :=
  let s1 := { s with loading := true, error := none }
  match r.containers, r.images, r.volumes, r.networks, r.system with
  | some cs, some is, some vs, some ns, some si =>
      { s1 with containers := cs, images := is, volumes := vs, networks := ns,
                systemInfo := some si, loading := false }
  | _, _, _, _, _ =>
      { s1 with error := some "Failed to fetch data", loading := false }

/-- handleDelete: guard on non-empty selection and confirmation; set
loading and clear the error; on a non-ok response set the generic
message; otherwise count the failed outcomes, set the failure-count
error when any failed, clear the selection, and run fetchData; finally
clear loading. -/
def handleDelete (s : AppState) (confirmAccepted : Bool) (respOk : Bool)
    (results : List DeleteOutcome) (refresh : FetchResults) : AppState :=
  if s.selectedItems = ∅ then s
  else if ¬ confirmAccepted then s
  else
    let s1 := { s with loading := true, error := none }
    if ¬ respOk then { s1 with error := some "Failed to delete items", loading := false }
    else
      let failed := results.filter (fun r => ¬ r.success)
      let s2 :=
        if 0 < failed.length then
          { s1 with error := some ("Failed to delete " ++ toString failed.length ++ " items") }
        else s1
      let s3 := { s2 with selectedItems := ∅ }
      let s4 := fetchData s3 refresh
      { s4 with loading := false }

/-! ## Helper lemmas for the client theorems -/

theorem listCmp_lt_iff (a : List Char) : ∀ b : List Char,
    listCmp a b < 0 ↔ List.Lex (fun c d => c < d) a b := by
  induction a with
  | nil =>
      intro b
      cases b with
      | nil =>
          constructor
          · intro h; simp [listCmp] at h
          · intro h; exact nomatch h
      | cons y ys =>
          constructor
          · intro _; exact List.Lex.nil
          · intro _; simp [listCmp]
  | cons x xs ih =>
      intro b
      cases b with
      | nil =>
          constructor
          · intro h; simp [listCmp] at h
          · intro h; exact nomatch h
      | cons y ys =>
          simp only [listCmp]
          by_cases hxy : x < y
          · simp only [hxy, if_true]
            constructor
            · intro _; exact List.Lex.rel hxy
            · intro _; norm_num
          · by_cases hyx : y < x
            · simp only [hxy, if_false, hyx, if_true]
              constructor
              · intro h; norm_num at h
              · intro h
                cases h with
                | cons h => exact absurd hyx (lt_irrefl x)
                | rel h => exact absurd h hxy
            · have hxye : x = y := le_antisymm (not_lt.mp hyx) (not_lt.mp hxy)
              subst hxye
              simp only [lt_irrefl, if_false]
              constructor
              · intro h; exact List.Lex.cons ((ih ys).mp h)
              · intro h
                cases h with
                | cons h => exact (ih ys).mpr h
                | rel h => exact absurd h (lt_irrefl x)

theorem listCmp_eq_zero_iff (a : List Char) : ∀ b : List Char, listCmp a b = 0 ↔ a = b := by
  induction a with
  | nil =>
      intro b
      cases b with
      | nil => simp [listCmp]
      | cons y ys => simp [listCmp]
  | cons x xs ih =>
      intro b
      cases b with
      | nil => simp [listCmp]
      | cons y ys =>
          simp only [listCmp]
          by_cases hxy : x < y
          · simp only [hxy, if_true]
            constructor
            · intro h; norm_num at h
            · intro h
              cases h
              exact absurd hxy (lt_irrefl x)
          · by_cases hyx : y < x
            · simp only [hxy, if_false, hyx, if_true]
              constructor
              · intro h; norm_num at h
              · intro h
                cases h
                exact absurd hyx (lt_irrefl x)
            · have hxye : x = y := le_antisymm (not_lt.mp hyx) (not_lt.mp hxy)
              subst hxye
              simp only [hxy, if_false, List.cons.injEq, true_and]
              exact ih ys

theorem listIncludes_iff (needle : List Char) : ∀ hay : List Char,
    listIncludes needle hay = true ↔ needle <:+: hay := by
  intro hay
  induction hay with
  | nil =>
      simp only [listIncludes, List.isEmpty_iff, List.infix_nil]
  | cons c cs ih =>
      simp only [listIncludes, Bool.or_eq_true, List.isPrefixOf_iff_prefix, ih,
        List.infix_cons_iff]

/-! Concrete states and payloads used by counterexamples and witnesses. -/

def emptyState : AppState :=
  { activeTab := .containers, containers := [], images := [], volumes := [], networks := [],
    systemInfo := none, selectedItems := ∅, loading := false, error := none,
    searchTerm := "", sortConfig := none }

def volRecA : Volume := ⟨"a", "x", "m", "t", 0, 0⟩

def volRecB : Volume := ⟨"b", "x", "m", "t", 0, 0⟩

/-! ## Claim theorems about the client -/

/-- Characterization of handleSort: the clicked key becomes the sort
key, with direction computed from the prior config. -/
theorem handleSort_sortConfig (s : AppState) (key : String) :
    (handleSort s key).sortConfig
      = some ⟨key,
          match s.sortConfig with
          | some sc => if sc.key = key ∧ sc.direction = .asc then .desc else .asc
          | none => .asc⟩ := rfl

/-- C5: clicking a column header makes it the descending sort key
exactly when it was already the ascending key, and the ascending key in
every other prior state; hence repeated clicks on one header alternate
between ascending and descending, and a click on a different header
resets to ascending. -/
theorem sort_toggle (s : AppState) (key : String) :
    (s.sortConfig = some ⟨key, .asc⟩ → (handleSort s key).sortConfig = some ⟨key, .desc⟩)
    ∧ (s.sortConfig ≠ some ⟨key, .asc⟩ → (handleSort s key).sortConfig = some ⟨key, .asc⟩)
    ∧ (∀ k2 d, s.sortConfig = some ⟨key, d⟩ → key ≠ k2 →
        (handleSort s k2).sortConfig = some ⟨k2, .asc⟩)
    ∧ ((handleSort s key).sortConfig = some ⟨key, .asc⟩ →
        (handleSort (handleSort s key) key).sortConfig = some ⟨key, .desc⟩)
    ∧ ((handleSort s key).sortConfig = some ⟨key, .desc⟩ →
        (handleSort (handleSort s key) key).sortConfig = some ⟨key, .asc⟩) := by
  refine ⟨?_, ?_, ?_, ?_, ?_⟩
  · intro h
    rw [handleSort_sortConfig, h]
    simp
  · intro h
    rw [handleSort_sortConfig]
    cases hc : s.sortConfig with
    | none => simp
    | some sc =>
        have hn : ¬ (sc.key = key ∧ sc.direction = .asc) := by
          intro hand
          apply h
          rw [hc]
          cases sc
          simp_all
        simp [hn]
  · intro k2 d h hne
    rw [handleSort_sortConfig, h]
    have hn : ¬ ((⟨key, d⟩ : SortConfig).key = k2 ∧ (⟨key, d⟩ : SortConfig).direction = .asc) := by
      intro hand
      exact hne hand.1
    simp [hn]
  · intro h
    rw [handleSort_sortConfig (handleSort s key) key, h]
    simp
  · intro h
    rw [handleSort_sortConfig (handleSort s key) key, h]
    simp

theorem sort_toggle_witness :
    (handleSort { emptyState with sortConfig := some ⟨"size", SortDirection.asc⟩ } "size").sortConfig
        = some ⟨"size", SortDirection.desc⟩
    ∧ (handleSort { emptyState with sortConfig := some ⟨"size", SortDirection.desc⟩ } "size").sortConfig
        = some ⟨"size", SortDirection.asc⟩
    ∧ (handleSort { emptyState with sortConfig := some ⟨"size", SortDirection.asc⟩ } "created").sortConfig
        = some ⟨"created", SortDirection.asc⟩ :=
  ⟨(sort_toggle { emptyState with sortConfig := some ⟨"size", SortDirection.asc⟩ } "size").1 rfl,
   (sort_toggle { emptyState with sortConfig := some ⟨"size", SortDirection.desc⟩ } "size").2.1
     (by decide),
   (sort_toggle { emptyState with sortConfig := some ⟨"size", SortDirection.asc⟩ } "size").2.2.1
     "created" SortDirection.asc rfl (by decide)⟩

/-- C4: when any of the five refresh responses is not ok, fetchData
commits none of the collections (containers, images, volumes, networks,
system info keep their previous values), reports the error, and clears
the loading flag. -/
theorem refresh_no_partial_commit (s : AppState) (r : FetchResults)
    (h : r.containers = none ∨ r.images = none ∨ r.volumes = none ∨ r.networks = none
      ∨ r.system = none) :
    (fetchData s r).containers = s.containers
    ∧ (fetchData s r).images = s.images
    ∧ (fetchData s r).volumes = s.volumes
    ∧ (fetchData s r).networks = s.networks
    ∧ (fetchData s r).systemInfo = s.systemInfo
    ∧ (fetchData s r).error = some "Failed to fetch data"
    ∧ (fetchData s r).loading = false := by
  unfold fetchData
  rcases r with ⟨rc, ri, rv, rn, rs⟩
  cases rc <;> cases ri <;> cases rv <;> cases rn <;> cases rs <;>
    first
    | (exact ⟨rfl, rfl, rfl, rfl, rfl, rfl, rfl⟩)
    | (exfalso; rcases h with h | h | h | h | h <;> exact Option.noConfusion h)

def exContainerA : Container := ⟨"c1", ["/web"], "nginx", "exited", "Exited (0)", 100, 10⟩

def exContainerB : Container := ⟨"c2", ["/db"], "postgres", "running", "Up 2 hours", 200, 20⟩

def refreshPriorState : AppState :=
  { emptyState with containers := [exContainerA], volumes := [volRecA] }

def failedRefresh : FetchResults :=
  ⟨some [], none, some [], some [], some ⟨0, 0, 0, 0, 0, 0⟩⟩

theorem refresh_no_partial_commit_witness :
    (fetchData refreshPriorState failedRefresh).containers = refreshPriorState.containers
    ∧ (fetchData refreshPriorState failedRefresh).images = refreshPriorState.images
    ∧ (fetchData refreshPriorState failedRefresh).volumes = refreshPriorState.volumes
    ∧ (fetchData refreshPriorState failedRefresh).networks = refreshPriorState.networks
    ∧ (fetchData refreshPriorState failedRefresh).systemInfo = refreshPriorState.systemInfo
    ∧ (fetchData refreshPriorState failedRefresh).error = some "Failed to fetch data"
    ∧ (fetchData refreshPriorState failedRefresh).loading = false :=
  refresh_no_partial_commit refreshPriorState failedRefresh (Or.inr (Or.inl rfl))

/-! Scenario for the delete round-trip (spec section 8): deleting c1 and
c2 where the engine refuses c2 because the container is running. -/

def deleteScenarioState : AppState :=
  { emptyState with containers := [exContainerA, exContainerB],
                    selectedItems := {"c1", "c2"} }

def deleteScenarioResults : List DeleteOutcome :=
  [⟨"c1", true, none⟩, ⟨"c2", false, some "container is running"⟩]

def deleteScenarioRefresh : FetchResults :=
  ⟨some [exContainerB], some [], some [], some [], some ⟨0, 0, 1, 20, 0, 0⟩⟩

/-- C3 evaluation: on the spec's own scenario (one of two removals
fails, the refresh succeeds), handleDelete does clear the selection and
commit the refreshed data, but its final error is none: the
failure-count message set before the refresh is erased by fetchData,
which resets the error at its start, so the count of failed items never
survives the always-following refresh. -/
theorem delete_partial_failure_error_not_surfaced :
    (handleDelete deleteScenarioState true true deleteScenarioResults
        deleteScenarioRefresh).error = none
    ∧ (handleDelete deleteScenarioState true true deleteScenarioResults
        deleteScenarioRefresh).selectedItems = ∅
    ∧ (handleDelete deleteScenarioState true true deleteScenarioResults
        deleteScenarioRefresh).containers = [exContainerB]
    ∧ (handleDelete deleteScenarioState true true deleteScenarioResults
        deleteScenarioRefresh).loading = false
    ∧ (deleteScenarioResults.filter (fun r => ¬ r.success)).length = 1 := by
  refine ⟨?_, ?_, ?_, ?_, ?_⟩ <;> rfl

/-! Select-all scoped-toggle scenario: two volumes a and b are selected,
then the search narrows the visible set to volume a alone. -/

def selectAllNarrowedState : AppState :=
  { emptyState with activeTab := .volumes, volumes := [volRecA, volRecB],
                    searchTerm := "a", selectedItems := {"a", "b"} }

/-- C2 counterexample: with selection a,b and the filter narrowing the
visible set to the already-selected volume a, handleSelectAll replaces
the selection by exactly the visible item a; it does not deselect only
the visible subset (which would leave b selected). -/
theorem select_all_not_subset_toggle :
    (getSortedAndFilteredItems selectAllNarrowedState).map
        (itemKey selectAllNarrowedState.activeTab) = ["a"]
    ∧ selectAllNarrowedState.selectedItems = {"a", "b"}
    ∧ (handleSelectAll selectAllNarrowedState).selectedItems = {"a"}
    ∧ (handleSelectAll selectAllNarrowedState).selectedItems ≠ ({"b"} : Finset String) := by
  refine ⟨?_, ?_, ?_, ?_⟩
  · rfl
  · rfl
  · decide
  · decide

/-- C2 amended: handleSelectAll toggles on a size comparison, not on
set coverage: when the selection count equals the visible row count the
entire selection is cleared (whatever its members), and otherwise the
selection becomes exactly the identifiers of the currently visible
(filtered and sorted) rows. -/
theorem select_all_size_toggle (s : AppState) :
    (s.selectedItems.card = (getSortedAndFilteredItems s).length →
      (handleSelectAll s).selectedItems = ∅)
    ∧ (s.selectedItems.card ≠ (getSortedAndFilteredItems s).length →
      (handleSelectAll s).selectedItems
        = ((getSortedAndFilteredItems s).map (itemKey s.activeTab)).toFinset) := by
  unfold handleSelectAll
  constructor
  · intro h
    rw [if_pos]
    rw [List.length_map]
    exact h
  · intro h
    rw [if_neg]
    rw [List.length_map]
    exact h

theorem select_all_size_toggle_witness :
    (handleSelectAll selectAllNarrowedState).selectedItems
      = ((getSortedAndFilteredItems selectAllNarrowedState).map
          (itemKey selectAllNarrowedState.activeTab)).toFinset :=
  (select_all_size_toggle selectAllNarrowedState).2 (by decide)

/-! A one-volume state whose single row is selected, used to show that
select-all can clear the selection. -/

def singleSelectedState : AppState :=
  { emptyState with activeTab := .volumes, volumes := [volRecA],
                    selectedItems := {"a"} }

/-- C10 counterexample: operations other than a tab switch or a
completed delete can clear the selection: on a state with one visible
row whose identifier is selected, handleSelectAll empties the
selection. -/
theorem selection_cleared_by_select_all :
    singleSelectedState.selectedItems ≠ ∅
    ∧ (handleSelectAll singleSelectedState).selectedItems = ∅ := by
  refine ⟨?_, ?_⟩
  · decide
  · decide

/-- C10 amended: changing the search text preserves the selection set
(hidden rows stay selected and the selection feeds a later delete
unchanged, shown by commuting handleDelete with the search change), a
tab switch clears the selection, and a completed confirmed delete with
an ok response clears it — but the select-all toggle (and per-item
deselection) can also empty the selection, so those two are not the
only clearing operations. -/
theorem search_preserves_selection (s : AppState) (text : String) (t : TabType)
    (conf respOk : Bool) (results : List DeleteOutcome) (refresh : FetchResults) :
    (handleSearchChange s text).selectedItems = s.selectedItems
    ∧ handleDelete (handleSearchChange s text) conf respOk results refresh
        = handleSearchChange (handleDelete s conf respOk results refresh) text
    ∧ (handleTabSwitch s t).selectedItems = ∅ := by
  refine ⟨rfl, ?_, rfl⟩
  rcases refresh with ⟨rc, ri, rv, rn, rs⟩
  unfold handleDelete handleSearchChange fetchData
  dsimp only
  cases rc <;> cases ri <;> cases rv <;> cases rn <;> cases rs <;> split_ifs <;> rfl

/-- C7: the displayed row set composes filter before sort; the filter
leaves the collection untouched for an empty search and otherwise keeps
exactly the rows matched by the kind-specific predicate, which is a
case-insensitive substring test (includes on lowercased strings, where
includes means list-infix) over: any name, the image reference and the
status for containers; any repo:tag and the id for images; name and
driver for volumes and for networks. -/
theorem filter_sort_compose (s : AppState) :
    getSortedAndFilteredItems s = sortItems s.activeTab s.sortConfig (getFilteredItems s)
    ∧ (s.searchTerm = "" → getFilteredItems s = itemsOf s)
    ∧ (s.searchTerm ≠ "" →
        getFilteredItems s = (itemsOf s).filter (matchesSearch s.activeTab s.searchTerm))
    ∧ (∀ c : Container,
        matchesSearch .containers s.searchTerm (.container c)
          = (c.names.any (fun n => jsIncludes (jsToLower n) (jsToLower s.searchTerm))
             || jsIncludes (jsToLower c.image) (jsToLower s.searchTerm)
             || jsIncludes (jsToLower c.status) (jsToLower s.searchTerm)))
    ∧ (∀ i : Image,
        matchesSearch .images s.searchTerm (.image i)
          = (i.repoTags.any (fun tg => jsIncludes (jsToLower tg) (jsToLower s.searchTerm))
             || jsIncludes (jsToLower i.id) (jsToLower s.searchTerm)))
    ∧ (∀ v : Volume,
        matchesSearch .volumes s.searchTerm (.volume v)
          = (jsIncludes (jsToLower v.name) (jsToLower s.searchTerm)
             || jsIncludes (jsToLower v.driver) (jsToLower s.searchTerm)))
    ∧ (∀ n : Network,
        matchesSearch .networks s.searchTerm (.network n)
          = (jsIncludes (jsToLower n.name) (jsToLower s.searchTerm)
             || jsIncludes (jsToLower n.driver) (jsToLower s.searchTerm)))
    ∧ (∀ hay needle : String,
        jsIncludes hay needle = true ↔ needle.toList <:+: hay.toList) := by
  refine ⟨rfl, ?_, ?_, fun c => rfl, fun i => rfl, fun v => rfl, fun n => rfl, ?_⟩
  · intro h
    simp [getFilteredItems, h]
  · intro h
    simp [getFilteredItems, h]
  · intro hay needle
    exact listIncludes_iff needle.toList hay.toList

/-! The image-search scenario of spec section 8: two images, one tagged
x:latest and one dangling, searched for x:latest. -/

def imgTagged : Image := ⟨"sha256:aaa", ["x:latest"], 1, 100, 100, 0⟩

def imgDangling : Image := ⟨"sha256:bbb", [], 2, 50, 50, 0⟩

def imageSearchState : AppState :=
  { emptyState with activeTab := .images, images := [imgTagged, imgDangling],
                    searchTerm := "x:latest" }

theorem filter_sort_compose_witness :
    getFilteredItems imageSearchState
      = (itemsOf imageSearchState).filter (matchesSearch .images "x:latest")
    ∧ getFilteredItems imageSearchState = [.image imgTagged] :=
  ⟨(filter_sort_compose imageSearchState).2.2.1 (by decide), by rfl⟩

/-- C6: sortItems permutes the rows (no row lost or duplicated) and is
stable (position-tie-breaking via enumeration does not change the
output), and its comparator is type-aware: two strings compare by
case-insensitive lexicographic order of the lowercased texts, two
numbers by their difference, two booleans with false before true; the
container name key substitutes the first name with its leading
separator stripped (empty when the name list is empty), the image
repoTags key substitutes the first tag (empty when absent), and an
undefined field value is compared as the empty string. -/
theorem sort_comparator_spec :
    (∀ (tab : TabType) (cfg : Option SortConfig) (items : List Item),
        (sortItems tab cfg items).Perm items)
    ∧ (∀ (tab : TabType) (sc : SortConfig) (items : List Item),
        sortItems tab (some sc) items
          = ((items.enum).mergeSort
              (List.enumLE (fun a b => itemCompare tab sc a b ≤ 0))).map (fun p => p.2))
    ∧ (∀ s t : String,
        (compareValues (.str s) (.str t) < 0
          ↔ List.Lex (fun c d => c < d) (jsToLower s).toList (jsToLower t).toList)
        ∧ (compareValues (.str s) (.str t) = 0 ↔ jsToLower s = jsToLower t))
    ∧ (∀ m n : Int,
        compareValues (.num m) (.num n) = m - n
        ∧ (compareValues (.num m) (.num n) < 0 ↔ m < n))
    ∧ (compareValues (.bool false) (.bool true) < 0
        ∧ compareValues (.bool true) (.bool false) > 0
        ∧ ∀ b : Bool, compareValues (.bool b) (.bool b) = 0)
    ∧ (∀ (c : Container) (n : String) (rest : List String) (ntail : List Char),
        c.names = n :: rest → n.toList = '/' :: ntail →
        deriveValue .containers "names" (.container c) = .str ⟨ntail⟩)
    ∧ (∀ c : Container, c.names = [] →
        deriveValue .containers "names" (.container c) = .str "")
    ∧ (∀ i : Image,
        deriveValue .images "repoTags" (.image i) = .str (i.repoTags.headD ""))
    ∧ normValue JsValue.undefined = JsValue.str "" := by
  refine ⟨?_, ?_, ?_, ?_, ?_, ?_, ?_, ?_, rfl⟩
  · intro tab cfg items
    cases cfg with
    | none => exact List.Perm.refl items
    | some sc => exact List.mergeSort_perm items _
  · intro tab sc items
    exact List.mergeSort_enum.symm
  · intro s t
    constructor
    · exact listCmp_lt_iff (jsToLower s).toList (jsToLower t).toList
    · have h := listCmp_eq_zero_iff (jsToLower s).toList (jsToLower t).toList
      refine h.trans ?_
      constructor
      · intro he
        exact String.ext he
      · intro he
        rw [he]
  · intro m n
    refine ⟨rfl, ?_⟩
    show m - n < 0 ↔ m < n
    omega
  · refine ⟨by decide, by decide, ?_⟩
    intro b
    cases b <;> rfl
  · intro c n rest ntail hnames hn
    have hg : Item.getField (.container c) "names" = .strList (n :: rest) := by
      simp [Item.getField, Container.getF, hnames]
    simp only [deriveValue, hg]
    norm_num
    have : jsReplaceFirst n "/" "" = (⟨ntail⟩ : String) := by
      unfold jsReplaceFirst
      rw [show ("/" : String).toList = ['/'] from rfl, hn]
      simp [replaceFirstAux, List.isPrefixOf]
    rw [this]
  · intro c hnames
    have hg : Item.getField (.container c) "names" = .strList [] := by
      simp [Item.getField, Container.getF, hnames]
    simp only [deriveValue, hg]
    norm_num
  · intro i
    cases hrt : i.repoTags with
    | nil =>
        have hg : Item.getField (.image i) "repoTags" = .strList [] := by
          simp [Item.getField, Image.getF, hrt]
        simp [deriveValue, hg]
    | cons t ts =>
        have hg : Item.getField (.image i) "repoTags" = .strList (t :: ts) := by
          simp [Item.getField, Image.getF, hrt]
        simp [deriveValue, hg]

theorem sort_comparator_spec_witness :
    deriveValue .containers "names" (.container exContainerA) = .str "web" :=
  sort_comparator_spec.2.2.2.2.2.1 exContainerA "/web" [] "web".toList rfl (by decide)
